import Mathlib

/-!
Verification of the `yams` mock HTTP server (package `yams`, file
`yams/yams.go`, the keyed-map variant that the design document adopts as
canonical).

Shallow embedding notes:
* Go's `regexp.MatchString(pattern, s)` is modelled by a derivative-based
  engine over the fragment of RE2 actually exercised here: literal
  characters, `.` (any character except newline) and postfix `*`.  Any
  other metacharacter is treated as a compile error, mirroring the
  `ok && err == nil` guard at both call sites (a compile error makes the
  guard false).
* The registry `map[string]Mock` is modelled as a list of mocks, each
  stored under its own key, with map lookup returning the zero `Mock`
  when the key is absent (Go zero-value semantics).  Go map iteration
  order is unspecified, so the `find` operation takes the iteration
  order as an explicit parameter; theorems quantify over it.
* In the `find` branch the actor sends every matching mock into an
  unbuffered channel from which `ServeHTTP` receives exactly once; the
  first matching send is received and its decrement is stored, after
  which a second matching send would block the actor forever, so no
  further state change is observable.  The model therefore returns after
  the first match in iteration order.
* The `http.ResponseWriter` is modelled by the response as delivered on
  the wire: `WriteHeader` sends the status together with the header map
  as of that call, and net/http ignores changes to the header map made
  after `WriteHeader`, so headers added later are never sent; `Write`
  appends body bytes.  Request bodies are modelled as already read (the
  `ioutil.ReadAll` error path is I/O and out of scope).
* Go `int` is modelled as `Int` (the `Times` budget can be decremented
  below zero), byte slices as `String` (`bytes.Equal(nil, [])` is true,
  matching the collapse of nil and empty), and `http.Header` as an
  association list with `none` lookup standing for the nil slice of an
  absent key.
-/

namespace Yams

/-! ## Regular-expression engine (fragment of Go RE2) -/

/-- Abstract syntax of the regular-expression fragment: empty language,
empty string, a literal character, `.` (any character except newline),
alternation, concatenation and Kleene star. -/
inductive RE where
  | emp : RE
  | eps : RE
  | chr : Char → RE
  | dot : RE
  | alt : RE → RE → RE
  | cat : RE → RE → RE
  | star : RE → RE
deriving DecidableEq, Repr

/-- Does the regular expression accept the empty string? -/
def RE.nullable : RE → Bool
  | .emp => false
  | .eps => true
  | .chr _ => false
  | .dot => false
  | .alt r1 r2 => r1.nullable || r2.nullable
  | .cat r1 r2 => r1.nullable && r2.nullable
  | .star _ => true

/-- Brzozowski derivative of a regular expression by a character. -/
def RE.deriv : RE → Char → RE
  | .emp, _ => .emp
  | .eps, _ => .emp
  | .chr c, a => if a = c then .eps else .emp
  | .dot, a => if a = '\n' then .emp else .eps
  | .alt r1 r2, a => .alt (r1.deriv a) (r2.deriv a)
  | .cat r1 r2, a =>
      if r1.nullable then .alt (.cat (r1.deriv a) r2) (r2.deriv a)
      else .cat (r1.deriv a) r2
  | .star r, a => .cat (r.deriv a) (.star r)

/-- Does the regular expression match some prefix of the character list? -/
def RE.matchesStart : RE → List Char → Bool
  | r, [] => r.nullable
  | r, c :: cs => r.nullable || (r.deriv c).matchesStart cs

/-- Unanchored matching: does the regular expression match some substring
of the character list?  This is the semantics of Go's
`regexp.MatchString`, which searches for a match anywhere. -/
def RE.matchesSub : RE → List Char → Bool
  | r, [] => r.nullable
  | r, c :: cs => r.matchesStart (c :: cs) || r.matchesSub cs

/-- Metacharacters outside the supported fragment; a pattern containing
one fails to compile in the model. -/
def metachars : List Char :=
  ['\\', '^', '$', '+', '?', '(', ')', '[', ']', '\x7b', '\x7d', '|']

/-- Pattern compiler for the supported fragment.  The accumulator holds
the atoms parsed so far in reverse order; a postfix `*` wraps the most
recent atom (`*` with no preceding atom, or a doubled `**`, is a compile
error, as in RE2). -/
def parseLoop : List RE → List Char → Option (List RE)
  | acc, [] => some acc
  | acc, c :: cs =>
    if c = '*' then
      match acc with
      | [] => none
      | a :: rest =>
        match a with
        | .star _ => none
        | _ => parseLoop (.star a :: rest) cs
    else if c ∈ metachars then none
    else if c = '.' then parseLoop (.dot :: acc) cs
    else parseLoop (.chr c :: acc) cs

/-- Compile a pattern string, yielding `none` on a compile error. -/
def compileRE (p : String) : Option RE :=
  (parseLoop [] p.toList).map (fun atoms => atoms.foldl (fun r a => .cat a r) .eps)

/-- Model of the guard `ok, err := regexp.MatchString(pattern, s); ok && err == nil`
used at both call sites in `yams.go`: `true` exactly when the pattern
compiles and matches some substring of `s`. -/
def goMatchString (pattern s : String) : Bool :=
  match compileRE pattern with
  | none => false
  | some r => r.matchesSub s.toList

/-! ## Data model -/

/-- The `Mock` struct of `yams.go`.  Field defaults give the Go zero
value.  `times` is `Int` because the Go `int` budget is decremented
without a lower bound; `wait` is the duration in nanoseconds. -/
structure Mock where
  method : String := ""
  url : String := ""
  reqHeaders : List (String × List String) := []
  reqBody : String := ""
  respStatus : Int := 0
  respHeaders : List (String × List String) := []
  respBody : String := ""
  wait : Int := 0
  times : Int := 0
deriving DecidableEq, Repr

/-- The zero value of `Mock`, produced by a Go map lookup on an absent
key and by a receive from a closed channel. -/
def zeroMock : Mock := {}

/-- The registration/lookup key, `fmt.Sprintf("%s_%s", m.Method, m.URL)`. -/
def Mock.key (m : Mock) : String := m.method ++ "_" ++ m.url

/-- An incoming HTTP request as the handler sees it: method,
`req.URL.String()` (path plus query), parsed headers, and the body
already read. -/
structure Request where
  method : String := ""
  url : String := ""
  headers : List (String × List String) := []
  body : String := ""
deriving DecidableEq, Repr

/-- Go map lookup `req.Header[name]`: `none` models the nil slice of an
absent name. -/
def headerGet (hs : List (String × List String)) (name : String) : Option (List String) :=
  (hs.find? (fun p => p.1 == name)).map Prod.snd

/-- The `Mock.match` method, translated check for check and in the
source's order: method equality; then the guard
`regexp.MatchString(m.key(), req.URL.String())` which, when it fires,
returns the unsuffixed no-match error; then body equality; then, when
the mock declares headers, `reflect.DeepEqual(req.Header[name], values)`
for every declared name.  Returns `some msg` for the error and `none`
for a successful match. -/
def Mock.matchReq (m : Mock) (req : Request) : Option String :=
  if m.method ≠ req.method then
    some ("no match for " ++ req.method ++ " " ++ req.url)
  else if goMatchString m.key req.url then
    some ("no match for " ++ req.method ++ " " ++ req.url)
  else if m.reqBody ≠ req.body then
    some ("no match for " ++ req.method ++ " " ++ req.url ++ " [body mismatch]")
  else if 0 < m.reqHeaders.length then
    if m.reqHeaders.any (fun p => !(headerGet req.headers p.1 == some p.2)) then
      some ("no match for " ++ req.method ++ " " ++ req.url ++ " [headers mismatch]")
    else
      none
  else
    none

/-- An HTTP response as delivered on the wire: the status and the
headers sent by `WriteHeader`, and the body bytes written. -/
structure Response where
  status : Int := 0
  headers : List (String × List String) := []
  body : String := ""
deriving DecidableEq, Repr

/-- The `Mock.write` method as delivered on the wire.  The source calls
`response.WriteHeader(m.RespStatus)` first, which sends the status and
the header map as of that moment — empty, since the handler never set a
header before this call; the `response.Header().Add(...)` loop over
`RespHeaders` runs only afterwards, and net/http ignores changes to the
header map after `WriteHeader`, so the configured response headers are
never sent.  The delivered response is the status and the body only. -/
def Mock.write (m : Mock) : Response :=
  { status := m.respStatus, headers := [], body := m.respBody }

/-! ## Registry actor (`runMocks`) -/

/-- Go map read `mocks[k]` with zero-value default. -/
def mapGet (mocks : List Mock) (k : String) : Mock :=
  match mocks.find? (fun m => m.key == k) with
  | some m => m
  | none => zeroMock

/-- Go map write `mocks[m.key()] = m`: replace the entry stored under
the same key, or insert. -/
def mapPut (mocks : List Mock) (m : Mock) : List Mock :=
  if mocks.any (fun e => e.key == m.key) then
    mocks.map (fun e => if e.key == m.key then m else e)
  else
    mocks ++ [m]

/-- The `add` branch of `runMocks`: look the argument's key up (zero
`Mock` when absent), increment the budget when the looked-up mock's key
equals the argument's key, otherwise take the argument itself; store the
result under its key.  Note that for the key `"_"` (empty method and
URL) the zero mock's key already equals the argument's key, so a first
add of that key stores the zero mock with budget 1 and drops the
argument's other fields. -/
def addOp (mocks : List Mock) (arg : Mock) : List Mock :=
  let m := mapGet mocks arg.key
  let m := if m.key == arg.key then { m with times := m.times + 1 } else arg
  mapPut mocks m

/-- The `find` branch of `runMocks`.  The Go code iterates the map in an
unspecified order, modelled by the explicit `order` list (an enumeration
of the registry); for each mock whose key, as a regular expression,
matches the probe's key it sends the mock and then stores it with the
budget decremented.  `ServeHTTP` receives exactly once from the
unbuffered channel, so the first matching send is the one received and
a second matching send would block the actor forever; the observable
outcome is the first match in iteration order, decremented in the
store. -/
def findOp (order mocks : List Mock) (probeKey : String) : Option Mock × List Mock :=
  match order.find? (fun m => goMatchString m.key probeKey) with
  | none => (none, mocks)
  | some m => (some m, mapPut mocks { m with times := m.times - 1 })

/-- The `flush` branch of `runMocks`: `mocks = make(map[string]Mock)`. -/
def flushOp (_mocks : List Mock) : List Mock := []

/-! ## Server handle -/

/-- The client-side `Add` normalization applied to each mock before the
`add` operation is sent: a zero `Times` becomes 1. -/
def normalizeAdd (m : Mock) : Mock :=
  if m.times = 0 then { m with times := 1 } else m

/-- `server.Add` for a single mock: normalize, then send the `add`
operation to the actor. -/
def addMock (mocks : List Mock) (m : Mock) : List Mock :=
  addOp mocks (normalizeAdd m)

/-- The part of the server handle state that `Close` touches: whether
the `ops` channel has already been closed. -/
structure Handle where
  opsClosed : Bool := false
deriving DecidableEq, Repr

/-- `server.Close`: a nil receiver returns immediately; otherwise
`close(s.ops)` runs, and Go's `close` on an already-closed channel
panics — the panic is modelled as `Except.error`. -/
def closeServer : Option Handle → Except String (Option Handle)
  | none => .ok none
  | some h =>
    if h.opsClosed then .error "close of closed channel"
    else .ok (some { h with opsClosed := true })

/-! ## Responder (`ServeHTTP`) -/

/-- The probe built from an incoming request:
`Mock{Method: request.Method, URL: request.URL.String()}`. -/
def probeOf (req : Request) : Mock :=
  { zeroMock with method := req.method, url := req.url }

/-- The HTTP 400 exhaustion response,
`"no more calls were expected for (%s)"` with the mock's key. -/
def exhaustResponse (m : Mock) : Response :=
  { status := 400, headers := [], body := "no more calls were expected for (" ++ m.key ++ ")" }

/-- `server.ServeHTTP`, with the registry state threaded explicitly:
build the probe, run a `find` (receiving the zero `Mock` from the closed
channel when nothing matched), answer 404 with the matcher's diagnostic
on a mismatch, 400 with the exhaustion diagnostic when the returned
budget is ≤ 0, and otherwise the mock's configured status and body via
`write` — without the configured `RespHeaders`, which net/http drops
because they are added after `WriteHeader` (the `Wait` sleep has no
observable effect in the model). -/
def serveHTTP (order mocks : List Mock) (req : Request) : Response × List Mock :=
  let probe := probeOf req
  let found := findOp order mocks probe.key
  let mock := found.1.getD zeroMock
  match mock.matchReq req with
  | some msg => ({ status := 404, headers := [], body := msg }, found.2)
  | none =>
    if mock.times ≤ 0 then
      (exhaustResponse mock, found.2)
    else
      (mock.write, found.2)

/-- Serve a sequence of requests, threading the registry state; each
`find` iterates the registry in its stored enumeration (for the
single-expectation registries this is used with, that is the only
enumeration a Go map can produce). -/
def serveAll (mocks : List Mock) : List Request → List Response × List Mock
  | [] => ([], mocks)
  | r :: rs =>
    let step := serveHTTP mocks mocks r
    let rest := serveAll step.2 rs
    (step.1 :: rest.1, rest.2)

/-! ## Spec-side definitions, for refinement comparison only -/

/-- Modelled from the spec's words (§4.1 `Find`), for comparison with
`findOp`: scan in insertion order, return the first expectation whose
key matches the probe and whose budget is positive; failing that, the
first whose key matches ignoring the budget; failing that, none. -/
def specFind (mocks : List Mock) (probeKey : String) : Option Mock :=
  match mocks.find? (fun m => goMatchString m.key probeKey && decide (0 < m.times)) with
  | some m => some m
  | none => mocks.find? (fun m => goMatchString m.key probeKey)

/-- Modelled from the spec's words (§4.2 step 2), for comparison with
the matcher's URL step: the URL-pattern evaluated as an unanchored
regular expression against the request's path+query. -/
def specUrlPass (m : Mock) (req : Request) : Bool :=
  goMatchString m.url req.url

/-! ## Concrete fixtures used by counterexamples and witnesses -/

/-- The spec's literal scenario: `GET /ping` answered `200 "pong"`, one
call expected. -/
def pingMock : Mock :=
  { method := "GET", url := "/ping", respStatus := 200, respBody := "pong", times := 1 }

/-- A `GET /ping` request with no headers and an empty body. -/
def pingReq : Request := { method := "GET", url := "/ping" }

/-- Like `pingMock` but with a configured response header, to exercise
the fact that `write` never delivers `RespHeaders`. -/
def hdrPingMock : Mock :=
  { method := "GET", url := "/ping", respStatus := 200,
    respHeaders := [("X-Trace", ["on"])], respBody := "pong", times := 1 }

/-- A registered expectation with an exhausted budget. -/
def budget0Mock : Mock := { method := "G", url := "p", times := 0 }

/-- An exhausted expectation whose key matches the probe `GET_/a`. -/
def cexA : Mock := { method := "GET", url := "/a", times := 0 }

/-- A later-registered expectation with budget 2 whose key `GET_.` also
matches the probe `GET_/a`. -/
def cexB : Mock := { method := "GET", url := ".", times := 2 }

/-- An expectation whose URL-pattern `x` is unrelated to the request URL
`/pong`; the matcher nevertheless accepts the pair. -/
def strayMock : Mock :=
  { method := "GET", url := "x", respStatus := 200, respBody := "hi", times := 1 }

/-- A `GET /pong` request with no headers and an empty body. -/
def pongReq : Request := { method := "GET", url := "/pong" }

/-- An expectation declaring both a required header and a required
body. -/
def hdrBodyMock : Mock :=
  { method := "GET", url := "/t", reqHeaders := [("X", ["1"])], reqBody := "abc" }

/-- A bare `GET /t` request: no headers, empty body. -/
def plainReq : Request := { method := "GET", url := "/t" }

/-- An expectation requiring body `"abc"`, budget 1. -/
def bodyMock : Mock := { method := "GET", url := "/t", reqBody := "abc", times := 1 }

/-- An expectation with URL-pattern `x` and no other requirements. -/
def xMock : Mock := { method := "GET", url := "x" }

/-- A mock with empty method and URL (key `"_"`) and a response body. -/
def unkeyedMock : Mock := { respBody := "B" }

/-- A second registration under `pingMock`'s key carrying different
fields and its own `Times`. -/
def mergeArg : Mock := { method := "GET", url := "/ping", respBody := "ZZZ", times := 7 }

/-! ## Helper lemmas -/

theorem key_times_update (m : Mock) (t : Int) : Mock.key { m with times := t } = m.key := rfl

theorem matchReq_times_update (m : Mock) (t : Int) (req : Request) :
    Mock.matchReq { m with times := t } req = m.matchReq req := rfl

theorem write_times_update (m : Mock) (t : Int) :
    Mock.write { m with times := t } = m.write := rfl

theorem exhaust_times_update (m : Mock) (t : Int) :
    exhaustResponse { m with times := t } = exhaustResponse m := rfl

theorem find?_map_replace (m : Mock) :
    ∀ mocks : List Mock, (mocks.any fun e => e.key == m.key) = true →
      ((mocks.map fun e => if e.key == m.key then m else e).find? fun x => x.key == m.key)
        = some m := by
  intro mocks
  induction mocks with
  | nil => simp
  | cons e es ih =>
    intro hany
    by_cases he : e.key = m.key
    · simp [he]
    · have hes : (es.any fun x => x.key == m.key) = true := by
        simpa [he] using hany
      simpa [he] using ih hes

theorem find?_append_self (m : Mock) :
    ∀ mocks : List Mock, (mocks.any fun e => e.key == m.key) = false →
      ((mocks ++ [m]).find? fun x => x.key == m.key) = some m := by
  intro mocks
  induction mocks with
  | nil => simp
  | cons e es ih =>
    intro hany
    rw [List.any_cons, Bool.or_eq_false_iff] at hany
    obtain ⟨he, hes⟩ := hany
    simpa [List.cons_append, List.find?_cons, he] using ih hes

/-- A map write with no matching stored key appends. -/
theorem mapPut_not_found (mocks : List Mock) (m : Mock)
    (hany : (mocks.any fun e => e.key == m.key) = false) :
    mapPut mocks m = mocks ++ [m] := by
  unfold mapPut
  rw [hany]
  simp

/-- A map write with a matching stored key replaces in place. -/
theorem mapPut_found (mocks : List Mock) (m : Mock)
    (hany : (mocks.any fun e => e.key == m.key) = true) :
    mapPut mocks m = mocks.map fun e => if e.key == m.key then m else e := by
  unfold mapPut
  rw [hany]
  simp

/-- Reading back the key just written gives the written mock, whatever
was stored before. -/
theorem mapGet_mapPut (mocks : List Mock) (m : Mock) :
    mapGet (mapPut mocks m) m.key = m := by
  by_cases hany : (mocks.any fun e => e.key == m.key) = true
  · rw [mapPut_found mocks m hany]
    unfold mapGet
    rw [find?_map_replace m mocks hany]
  · have hany' : (mocks.any fun e => e.key == m.key) = false := by
      simpa using hany
    rw [mapPut_not_found mocks m hany']
    unfold mapGet
    rw [find?_append_self m mocks hany']

/-- A map write leaves every entry stored under a different key in
place. -/
theorem mem_mapPut_of_ne (mocks : List Mock) (m e : Mock)
    (he : e ∈ mocks) (hk : e.key ≠ m.key) : e ∈ mapPut mocks m := by
  unfold mapPut
  split
  · exact List.mem_map.mpr ⟨e, he, by simp [hk]⟩
  · exact List.mem_append_left _ he

theorem normalizeAdd_key (m : Mock) : (normalizeAdd m).key = m.key := by
  unfold normalizeAdd; split <;> rfl

/-- When the argument's key is already stored, the `add` branch stores
the old entry with its budget incremented, discarding the argument's
other fields. -/
theorem addMock_found (mocks : List Mock) (m e : Mock)
    (hfound : mocks.find? (fun x => x.key == m.key) = some e) :
    addMock mocks m = mapPut mocks { e with times := e.times + 1 } := by
  have hek : e.key = m.key := by
    have := List.find?_some hfound
    simpa using this
  unfold addMock addOp mapGet
  rw [normalizeAdd_key, hfound]
  simp [hek]

/-- When the argument's key is absent and is not the zero mock's key
`"_"`, the `add` branch appends the argument itself. -/
theorem addMock_fresh (mocks : List Mock) (m : Mock)
    (hnone : mocks.find? (fun x => x.key == m.key) = none)
    (hk : m.key ≠ "_") :
    addMock mocks m = mocks ++ [normalizeAdd m] := by
  have h1 : mapGet mocks (normalizeAdd m).key = zeroMock := by
    unfold mapGet
    rw [normalizeAdd_key, hnone]
  have hcond : (Mock.key zeroMock == (normalizeAdd m).key) = false := by
    rw [normalizeAdd_key]
    have hz : Mock.key zeroMock = "_" := rfl
    rw [hz]
    exact beq_eq_false_iff_ne.mpr fun h => hk h.symm
  have hany : (mocks.any fun e => e.key == (normalizeAdd m).key) = false := by
    rw [List.any_eq_false]
    intro x hx
    have := List.find?_eq_none.mp hnone x hx
    simpa [normalizeAdd_key] using this
  simp only [addMock, addOp, h1, hcond, Bool.false_eq_true, if_false]
  exact mapPut_not_found mocks (normalizeAdd m) hany

/-- A successful `find` returns a mock whose key-regex matches the
probe's key, and stores that mock with its budget decremented. -/
theorem findOp_some_spec (order mocks : List Mock) (k : String) (m : Mock)
    (h : (findOp order mocks k).1 = some m) :
    goMatchString m.key k = true ∧
    (findOp order mocks k).2 = mapPut mocks { m with times := m.times - 1 } := by
  cases hfind : (order.find? fun x => goMatchString x.key k) with
  | none =>
    unfold findOp at h
    rw [hfind] at h
    exact absurd h (by simp)
  | some m0 =>
    have h0 : m0 = m := by
      unfold findOp at h
      rw [hfind] at h
      simpa using h
    subst h0
    constructor
    · simpa using List.find?_some hfind
    · unfold findOp
      rw [hfind]

/-- An unsuccessful `find` leaves the registry untouched, and means no
entry of the scanned enumeration key-matches the probe. -/
theorem findOp_none_spec (order mocks : List Mock) (k : String)
    (h : (findOp order mocks k).1 = none) :
    (findOp order mocks k).2 = mocks ∧
    ∀ x ∈ order, goMatchString x.key k = false := by
  cases hfind : (order.find? fun x => goMatchString x.key k) with
  | some m0 =>
    unfold findOp at h
    rw [hfind] at h
    exact absurd h (by simp)
  | none =>
    constructor
    · unfold findOp
      rw [hfind]
    · intro x hx
      have := List.find?_eq_none.mp hfind x hx
      simpa using this

/-- The registry state after `ServeHTTP` is exactly the state after its
`find`, whichever response branch is taken. -/
theorem serveHTTP_snd (order mocks : List Mock) (req : Request) :
    (serveHTTP order mocks req).2 = (findOp order mocks (probeOf req).key).2 := by
  unfold serveHTTP
  cases hm : Mock.matchReq ((findOp order mocks (probeOf req).key).1.getD zeroMock) req with
  | some msg => simp [hm]
  | none => simp only [hm]; split <;> rfl

/-- One request against a single-expectation registry whose expectation
is both selected by the key regex and accepted by the matcher: the
response is the configured one, or the exhaustion diagnostic when the
budget is spent, and the stored budget drops by one either way. -/
theorem serve_single_step (m : Mock) (r : Request)
    (hm : m.matchReq r = none)
    (hf : goMatchString m.key (probeOf r).key = true) :
    serveHTTP [m] [m] r =
      ((if m.times ≤ 0 then exhaustResponse m else m.write),
        [{ m with times := m.times - 1 }]) := by
  have hfind : findOp [m] [m] (probeOf r).key
      = (some m, mapPut [m] { m with times := m.times - 1 }) := by
    unfold findOp
    simp [List.find?_cons, hf]
  have hput : mapPut [m] { m with times := m.times - 1 } = [{ m with times := m.times - 1 }] := by
    rw [mapPut_found]
    · simp [key_times_update]
    · simp [key_times_update]
  simp only [serveHTTP]
  rw [hfind]
  simp only [Option.getD_some, hm, hput]
  split <;> rfl

/-- Serving a whole sequence of selected-and-matching requests against a
single-expectation registry: the i-th response is the configured one
while the budget lasts and the exhaustion diagnostic afterwards, and the
final stored budget is the initial one minus the number of requests. -/
theorem serveAll_single (reqs : List Request) :
    ∀ m : Mock,
      (∀ r ∈ reqs, m.matchReq r = none ∧ goMatchString m.key (probeOf r).key = true) →
      (serveAll [m] reqs).1 =
          (List.range reqs.length).map
            (fun i : Nat => if m.times - (i : Int) ≤ 0 then exhaustResponse m else m.write) ∧
      (serveAll [m] reqs).2 = [{ m with times := m.times - (reqs.length : Int) }] := by
  induction reqs with
  | nil =>
    intro m _
    constructor
    · rfl
    · simp [serveAll]
  | cons r rs ih =>
    intro m hgood
    have hr := hgood r (List.mem_cons_self r rs)
    have hstep := serve_single_step m r hr.1 hr.2
    have hgood' : ∀ r' ∈ rs, Mock.matchReq { m with times := m.times - 1 } r' = none ∧
        goMatchString (Mock.key { m with times := m.times - 1 }) (probeOf r').key = true := by
      intro r' hr'
      rw [matchReq_times_update, key_times_update]
      exact hgood r' (List.mem_cons_of_mem r hr')
    have hih := ih { m with times := m.times - 1 } hgood'
    constructor
    · show (serveHTTP [m] [m] r).1 :: (serveAll (serveHTTP [m] [m] r).2 rs).1 = _
      rw [hstep]
      show _ :: (serveAll [{ m with times := m.times - 1 }] rs).1 = _
      rw [hih.1]
      rw [List.length_cons, List.range_succ_eq_map, List.map_cons, List.map_map]
      congr 1
      · have h0 : m.times - ((0 : Nat) : Int) = m.times := by push_cast; ring
        rw [h0]
      · apply List.map_congr_left
        intro i _
        simp only [Function.comp_apply]
        rw [exhaust_times_update, write_times_update]
        show (if m.times - 1 - (i : Int) ≤ 0 then exhaustResponse m else m.write)
            = (if m.times - ((Nat.succ i : Nat) : Int) ≤ 0 then exhaustResponse m else m.write)
        have harith : (m.times - 1 - (i : Int) ≤ 0) ↔ (m.times - ((Nat.succ i : Nat) : Int) ≤ 0) := by
          push_cast
          omega
        exact if_congr harith rfl rfl
    · show (serveAll (serveHTTP [m] [m] r).2 rs).2 = _
      rw [hstep]
      show (serveAll [{ m with times := m.times - 1 }] rs).2 = _
      rw [hih.2]
      rw [List.length_cons]
      have harith : m.times - 1 - ((rs.length : Nat) : Int)
          = m.times - ((rs.length + 1 : Nat) : Int) := by
        push_cast
        ring
      exact congrArg (fun t => [{ m with times := t }]) harith

/-! ## Claim C1 -/

/-- C1, counterexample: starting from an empty registry, register the
`GET /ping` expectation with budget 1 and serve two matching requests;
the registry then stores the expectation with budget `-1`, refuting the
claim that no registry operation ever stores a negative budget. -/
theorem find_negative_budget_cex :
    (mapGet ((serveAll (addMock [] pingMock) [pingReq, pingReq]).2) "GET_/ping").times
      = -1 := by decide

/-- C1, amended: the mock a `find` returns is the stored copy before any
decrement — selecting a budget-0 expectation returns it with budget
still 0 — but the store unconditionally decrements the selected
expectation's budget, which can therefore become negative. -/
theorem findOp_returns_then_decrements (order mocks : List Mock) (k : String) (m : Mock)
    (h : (findOp order mocks k).1 = some m) :
    goMatchString m.key k = true ∧
    mapGet (findOp order mocks k).2 m.key = { m with times := m.times - 1 } := by
  obtain ⟨hmatch, hsnd⟩ := findOp_some_spec order mocks k m h
  refine ⟨hmatch, ?_⟩
  rw [hsnd]
  have hg := mapGet_mapPut mocks { m with times := m.times - 1 }
  rw [key_times_update] at hg
  exact hg

/-- Witness for C1's amended theorem: a registry holding the single
exhausted expectation `budget0Mock`; the find returns it (budget 0) and
stores it with budget `-1`. -/
theorem findOp_returns_then_decrements_witness :
    goMatchString (Mock.key budget0Mock) "G_p" = true ∧
    mapGet (findOp [budget0Mock] [budget0Mock] "G_p").2 (Mock.key budget0Mock)
      = { budget0Mock with times := budget0Mock.times - 1 } :=
  findOp_returns_then_decrements [budget0Mock] [budget0Mock] "G_p" budget0Mock (by decide)

/-! ## Claim C2 -/

/-- C2, counterexample: with the exhausted `cexA` registered before the
budget-2 `cexB`, both matching the probe `GET_/a`, a find that scans in
insertion order returns `cexA`, while the spec's `Find` (first match
with positive budget) returns `cexB`. -/
theorem findOp_ignores_budget_cex :
    (findOp [cexA, cexB] [cexA, cexB] "GET_/a").1 ≠ specFind [cexA, cexB] "GET_/a" := by
  decide

/-- C2, amended: for any enumeration the Go map may iterate in, `find`
returns the first expectation of that enumeration whose key-regex
matches the probe, irrespective of its remaining budget: it returns none
exactly when no registered expectation's key matches, and any returned
expectation is registered and key-matching. -/
theorem findOp_first_match_any_order (order mocks : List Mock) (k : String)
    (hperm : order.Perm mocks) :
    ((findOp order mocks k).1 = none ↔ ∀ m ∈ mocks, goMatchString m.key k = false) ∧
    (∀ m, (findOp order mocks k).1 = some m →
       m ∈ mocks ∧ goMatchString m.key k = true) := by
  constructor
  · constructor
    · intro h m hm
      exact (findOp_none_spec order mocks k h).2 m (hperm.mem_iff.mpr hm)
    · intro hall
      cases hsome : (findOp order mocks k).1 with
      | none => rfl
      | some m0 =>
        obtain ⟨hmatch, _⟩ := findOp_some_spec order mocks k m0 hsome
        have hm0 : m0 ∈ order := by
          unfold findOp at hsome
          cases hfind : (order.find? fun x => goMatchString x.key k) with
          | none => rw [hfind] at hsome; exact absurd hsome (by simp)
          | some m1 =>
            rw [hfind] at hsome
            have : m1 = m0 := by simpa using hsome
            subst this
            exact List.mem_of_find?_eq_some hfind
        have := hall m0 (hperm.subset hm0)
        rw [this] at hmatch
        exact absurd hmatch (by simp)
  · intro m hsome
    have hmatch := (findOp_some_spec order mocks k m hsome).1
    have hm0 : m ∈ order := by
      unfold findOp at hsome
      cases hfind : (order.find? fun x => goMatchString x.key k) with
      | none => rw [hfind] at hsome; exact absurd hsome (by simp)
      | some m1 =>
        rw [hfind] at hsome
        have : m1 = m := by simpa using hsome
        subst this
        exact List.mem_of_find?_eq_some hfind
    exact ⟨hperm.subset hm0, hmatch⟩

/-- Witness for C2's amended theorem: the registry `[cexA, cexB]`
iterated in the reversed order `[cexB, cexA]`; the find returns the
registered, key-matching `cexB`. -/
theorem findOp_first_match_any_order_witness :
    cexB ∈ [cexA, cexB] ∧ goMatchString (Mock.key cexB) "GET_/a" = true :=
  (findOp_first_match_any_order [cexB, cexA] [cexA, cexB] "GET_/a" (by decide)).2
    cexB (by decide)

/-! ## Claim C3 -/

/-- C3, counterexample: `strayMock` (budget 1) and the request
`GET /pong` satisfy the Matcher (`match` returns nil, because the
inverted URL check passes whenever the key-regex fails to match the
URL), yet the very first such request is answered 404 — the registry's
key-regex lookup never selects the expectation — rather than with the
configured `200 "hi"` response. -/
theorem matcher_pass_not_found_cex :
    Mock.matchReq strayMock pongReq = none ∧
    Mock.times strayMock = 1 ∧
    (serveHTTP [strayMock] [strayMock] pongReq).1
      = { status := 404, headers := [], body := "no match for GET /pong" } := by decide

/-- C3, amended: for an expectation registered alone with budget
`N ≥ 1`, and `N + 1` requests that both satisfy the Matcher and are
selected by the registry's key-regex lookup, the first `N` responses
carry the configured status and body but no response headers — the
configured `RespHeaders` are added after `WriteHeader` and therefore
never delivered — and the `(N+1)`-th response is HTTP 400 with body
`no more calls were expected for (METHOD_URL-pattern)`. -/
theorem serve_budget_exhaustion (m : Mock) (N : Nat) (reqs : List Request)
    (_hN : 1 ≤ N) (htimes : m.times = (N : Int)) (hlen : reqs.length = N + 1)
    (hgood : ∀ r ∈ reqs, m.matchReq r = none ∧ goMatchString m.key (probeOf r).key = true) :
    (∀ i : Nat, i < N → ((serveAll [m] reqs).1)[i]?
        = some { status := m.respStatus, headers := [], body := m.respBody }) ∧
    ((serveAll [m] reqs).1)[N]? = some (exhaustResponse m) := by
  have hall := (serveAll_single reqs m hgood).1
  constructor
  · intro i hi
    rw [hall, List.getElem?_map, List.getElem?_range (by omega : i < reqs.length)]
    have hpos : ¬ (m.times - (i : Int) ≤ 0) := by
      rw [htimes]
      omega
    simp only [Option.map_some']
    rw [if_neg hpos]
    rfl
  · rw [hall, List.getElem?_map, List.getElem?_range (by omega : N < reqs.length)]
    have hz : m.times - (N : Int) ≤ 0 := by
      rw [htimes]
      omega
    simp only [Option.map_some']
    rw [if_pos hz]

/-- Witness for C3's amended theorem, the spec's literal scenario with a
configured response header added: `GET /ping` registered with budget 1
and a `RespHeaders` entry `X-Trace`, two `GET /ping` requests; the first response
delivers the configured status and body but not the configured header,
the second is the exhaustion 400. -/
theorem serve_budget_exhaustion_witness :
    ((serveAll [hdrPingMock] [pingReq, pingReq]).1)[0]?
      = some { status := Mock.respStatus hdrPingMock, headers := [],
               body := Mock.respBody hdrPingMock } ∧
    ((serveAll [hdrPingMock] [pingReq, pingReq]).1)[1]? = some (exhaustResponse hdrPingMock) ∧
    Mock.respHeaders hdrPingMock = [("X-Trace", ["on"])] :=
  ⟨(serve_budget_exhaustion hdrPingMock 1 [pingReq, pingReq]
      (by decide) (by decide) (by decide) (by decide)).1 0 (by decide),
   (serve_budget_exhaustion hdrPingMock 1 [pingReq, pingReq]
      (by decide) (by decide) (by decide) (by decide)).2,
   by decide⟩

/-! ## Claim C4 -/

/-- C4, counterexample: `hdrBodyMock` requires both a header and a body;
the bare `GET /t` request passes the method and URL steps and fails the
header comparison, yet the diagnostic is the body-mismatch message, not
one ending in `[headers mismatch]` — the code checks the body before the
headers. -/
theorem matcher_body_before_headers_cex :
    Mock.matchReq hdrBodyMock plainReq = some "no match for GET /t [body mismatch]" ∧
    goMatchString (Mock.url hdrBodyMock) plainReq.url = true ∧
    goMatchString (Mock.key hdrBodyMock) plainReq.url = false ∧
    headerGet plainReq.headers "X" = none ∧
    ¬ List.IsSuffix ("[headers mismatch]".toList)
        ("no match for GET /t [body mismatch]".toList) := by decide

/-- C4, amended: the Matcher's checks run in the order method equality,
URL check, body equality, header comparison — body before headers — with
the first failure winning: a method failure or a URL-step failure yields
the unsuffixed no-match message, a body failure yields the
`[body mismatch]` suffix even when the headers also disagree, and only a
request passing the body check can receive the `[headers mismatch]`
suffix. -/
theorem matcher_check_order (m : Mock) (req : Request) :
    (m.method ≠ req.method →
       m.matchReq req = some ("no match for " ++ req.method ++ " " ++ req.url)) ∧
    (m.method = req.method → goMatchString m.key req.url = true →
       m.matchReq req = some ("no match for " ++ req.method ++ " " ++ req.url)) ∧
    (m.method = req.method → goMatchString m.key req.url = false → m.reqBody ≠ req.body →
       m.matchReq req
         = some ("no match for " ++ req.method ++ " " ++ req.url ++ " [body mismatch]")) ∧
    (m.method = req.method → goMatchString m.key req.url = false → m.reqBody = req.body →
       (m.reqHeaders.any fun p => !(headerGet req.headers p.1 == some p.2)) = true →
       m.matchReq req
         = some ("no match for " ++ req.method ++ " " ++ req.url ++ " [headers mismatch]")) ∧
    (m.method = req.method → goMatchString m.key req.url = false → m.reqBody = req.body →
       (m.reqHeaders.any fun p => !(headerGet req.headers p.1 == some p.2)) = false →
       m.matchReq req = none) := by
  refine ⟨?_, ?_, ?_, ?_, ?_⟩
  · intro h1
    simp [Mock.matchReq, h1]
  · intro h1 h2
    simp [Mock.matchReq, h1, h2]
  · intro h1 h2 h3
    simp [Mock.matchReq, h1, h2, h3]
  · intro h1 h2 h3 h4
    have hne : m.reqHeaders ≠ [] := by
      intro hnil
      rw [hnil] at h4
      simp at h4
    have hlen : 0 < m.reqHeaders.length := List.length_pos.mpr hne
    simp [Mock.matchReq, h1, h2, h3, h4, hlen]
  · intro h1 h2 h3 h4
    by_cases hlen : 0 < m.reqHeaders.length
    · simp [Mock.matchReq, h1, h2, h3, h4, hlen]
    · simp [Mock.matchReq, h1, h2, h3, hlen]

/-- Witness for C4's amended theorem: for `hdrBodyMock` against the bare
`GET /t` request, the body-mismatch branch fires even though the header
comparison also fails. -/
theorem matcher_check_order_witness :
    Mock.matchReq hdrBodyMock plainReq
      = some ("no match for " ++ plainReq.method ++ " " ++ plainReq.url
          ++ " [body mismatch]") :=
  (matcher_check_order hdrBodyMock plainReq).2.2.1 (by decide) (by decide) (by decide)

/-! ## Claim C5 -/

/-- C5, counterexample: `bodyMock` (budget 1) is selected by the
key-regex lookup for `GET /t`, the body comparison then fails and the
request is answered 404 — yet the stored budget has dropped from 1 to 0,
refuting the claim that a 404-answered request leaves the budget
unchanged. -/
theorem decrement_on_mismatch_cex :
    Mock.times bodyMock = 1 ∧
    (serveHTTP [bodyMock] [bodyMock] plainReq).1.status = 404 ∧
    (serveHTTP [bodyMock] [bodyMock] plainReq).2
      = [{ method := "GET", url := "/t", reqBody := "abc", times := 0 }] := by decide

/-- C5, amended: per request, the budget of the expectation selected by
the `find`'s key-regex scan — and of no other — is decremented exactly
once, regardless of whether the header/body comparison then fails (404)
and regardless of the current budget value; when the scan selects
nothing, the registry is unchanged. -/
theorem serve_decrement_frame (order mocks : List Mock) (req : Request) :
    ((findOp order mocks (probeOf req).key).1 = none →
       (serveHTTP order mocks req).2 = mocks) ∧
    (∀ m, (findOp order mocks (probeOf req).key).1 = some m →
       mapGet (serveHTTP order mocks req).2 m.key = { m with times := m.times - 1 } ∧
       ∀ e ∈ mocks, e.key ≠ m.key → e ∈ (serveHTTP order mocks req).2) := by
  constructor
  · intro h
    rw [serveHTTP_snd]
    exact (findOp_none_spec order mocks (probeOf req).key h).1
  · intro m hm
    obtain ⟨_, hsnd⟩ := findOp_some_spec order mocks (probeOf req).key m hm
    constructor
    · rw [serveHTTP_snd, hsnd]
      have hg := mapGet_mapPut mocks { m with times := m.times - 1 }
      rw [key_times_update] at hg
      exact hg
    · intro e he hk
      rw [serveHTTP_snd, hsnd]
      exact mem_mapPut_of_ne mocks { m with times := m.times - 1 } e he
        (by rw [key_times_update]; exact hk)

/-- Witness for C5's amended theorem: serving `GET /t` against
`[bodyMock]` decrements the stored budget to 0 even though the response
is a 404 body-mismatch. -/
theorem serve_decrement_frame_witness :
    mapGet (serveHTTP [bodyMock] [bodyMock] plainReq).2 (Mock.key bodyMock)
      = { bodyMock with times := bodyMock.times - 1 } :=
  ((serve_decrement_frame [bodyMock] [bodyMock] plainReq).2 bodyMock (by decide)).1

/-! ## Claim C6 -/

/-- C6, counterexample: `xMock`'s URL-pattern `x` does not match the
request URL `/pong` (so the claim says the URL step fails), yet the
Matcher accepts the pair outright: the code's URL check passes whenever
the key `GET_x`, as a regex, does NOT match the URL. -/
theorem url_step_inverted_cex :
    Mock.matchReq xMock pongReq = none ∧
    goMatchString (Mock.url xMock) pongReq.url = false ∧
    specUrlPass xMock pongReq = false := by decide

/-- C6, amended: for a request agreeing with the expectation on method,
body and declared headers, the Matcher accepts exactly when the
expectation's full key `METHOD_pattern`, evaluated as an unanchored
regular expression against the request's path+query, does NOT match it —
the check is inverted and uses the key, not the bare URL-pattern. -/
theorem matcher_url_step (m : Mock) (req : Request)
    (hm : m.method = req.method) (hb : m.reqBody = req.body)
    (hh : (m.reqHeaders.any fun p => !(headerGet req.headers p.1 == some p.2)) = false) :
    (m.matchReq req = none ↔ goMatchString m.key req.url = false) := by
  by_cases hu : goMatchString m.key req.url = true
  · simp [Mock.matchReq, hm, hu]
  · have hu2 : goMatchString m.key req.url = false := by
      simpa using hu
    by_cases hlen : 0 < m.reqHeaders.length
    · simp [Mock.matchReq, hm, hb, hh, hu2, hlen]
    · simp [Mock.matchReq, hm, hb, hu2, hlen]

/-- Witness for C6's amended theorem: `xMock` against `GET /pong`. -/
theorem matcher_url_step_witness :
    Mock.matchReq xMock pongReq = none ↔ goMatchString (Mock.key xMock) pongReq.url = false :=
  matcher_url_step xMock pongReq (by decide) (by decide) (by decide)

/-! ## Claim C7 -/

/-- C7, counterexample: adding `unkeyedMock` (empty method and URL, so
its key is `"_"`, fresh in the empty registry) does not insert it: the
zero mock already carries the key `"_"`, so the merge branch fires and
stores the zero mock with budget 1, dropping the response body `"B"`. -/
theorem add_empty_key_cex :
    addMock [] unkeyedMock = [{ zeroMock with times := 1 }] ∧
    Mock.respBody { zeroMock with times := 1 } = "" ∧
    Mock.respBody (normalizeAdd unkeyedMock) = "B" := by decide

/-- C7, amended: `Add` normalizes a zero budget to 1 before the mock
reaches the registry; an add whose key is already stored increments the
stored expectation's budget; an add with a fresh key other than `"_"`
appends the normalized mock; an add with the fresh key `"_"` (empty
method and URL) instead stores the zero mock with budget 1. -/
theorem add_normalize_insert_or_merge (mocks : List Mock) (m : Mock) :
    ((normalizeAdd m).times = if m.times = 0 then 1 else m.times) ∧
    (∀ e, mocks.find? (fun x => x.key == m.key) = some e →
       addMock mocks m = mapPut mocks { e with times := e.times + 1 }) ∧
    (mocks.find? (fun x => x.key == m.key) = none → m.key ≠ "_" →
       addMock mocks m = mocks ++ [normalizeAdd m]) ∧
    (mocks.find? (fun x => x.key == m.key) = none → m.key = "_" →
       addMock mocks m = mocks ++ [{ zeroMock with times := 1 }]) := by
  refine ⟨?_, ?_, ?_, ?_⟩
  · unfold normalizeAdd
    split <;> rfl
  · intro e he
    exact addMock_found mocks m e he
  · intro hn hk
    exact addMock_fresh mocks m hn hk
  · intro hn hk
    have h1 : mapGet mocks (normalizeAdd m).key = zeroMock := by
      unfold mapGet
      rw [normalizeAdd_key, hn]
    have hcond : (Mock.key zeroMock == (normalizeAdd m).key) = true := by
      rw [normalizeAdd_key, hk]
      rfl
    have hany : (mocks.any fun e => e.key == (normalizeAdd m).key) = false := by
      rw [List.any_eq_false]
      intro x hx
      have := List.find?_eq_none.mp hn x hx
      simpa [normalizeAdd_key] using this
    have hany2 : (mocks.any fun e =>
        e.key == Mock.key { zeroMock with times := zeroMock.times + 1 }) = false := by
      have hzk : Mock.key { zeroMock with times := zeroMock.times + 1 } = "_" := rfl
      rw [hzk]
      simp only [normalizeAdd_key, hk] at hany
      exact hany
    simp only [addMock, addOp, h1, hcond, if_true]
    have hput := mapPut_not_found mocks { zeroMock with times := zeroMock.times + 1 } hany2
    rw [hput]
    have hone : ({ zeroMock with times := zeroMock.times + 1 } : Mock)
        = { zeroMock with times := 1 } := rfl
    rw [hone]

/-- Witness for C7's amended theorem, merge branch: re-adding
`pingMock`'s key via `mergeArg` increments the stored budget. -/
theorem add_normalize_insert_or_merge_witness :
    addMock [pingMock] mergeArg = mapPut [pingMock] { pingMock with times := pingMock.times + 1 } :=
  (add_normalize_insert_or_merge [pingMock] mergeArg).2.1 pingMock (by decide)

/-! ## Claim C8 -/

/-- C8, counterexample: closing a fresh handle succeeds and marks the
`ops` channel closed; a second `Close` on that handle runs
`close(s.ops)` on an already-closed channel, which panics — `Close` is
not idempotent. -/
theorem double_close_cex :
    closeServer (some { opsClosed := false }) = Except.ok (some { opsClosed := true }) ∧
    closeServer (some { opsClosed := true }) = Except.error "close of closed channel" :=
  ⟨rfl, rfl⟩

/-- C8, amended: `Close` on a nil handle is a no-op; `Close` on an open
handle closes the ops channel; `Close` on an already-closed handle
panics with `close of closed channel`. -/
theorem close_behavior :
    closeServer none = Except.ok none ∧
    (∀ h : Handle, h.opsClosed = false →
       closeServer (some h) = Except.ok (some { h with opsClosed := true })) ∧
    (∀ h : Handle, h.opsClosed = true →
       closeServer (some h) = Except.error "close of closed channel") := by
  refine ⟨rfl, ?_, ?_⟩ <;> intro h hh <;> simp [closeServer, hh]

/-- Witness for C8's amended theorem: the double-close panic branch at a
concrete closed handle. -/
theorem close_behavior_witness :
    closeServer (some { opsClosed := true }) = Except.error "close of closed channel" :=
  close_behavior.2.2 { opsClosed := true } rfl

/-! ## Claim C9 -/

/-- C9, confirmed: after a `flush` the registry is empty, so a find in
any enumeration the map can produce returns none, and every subsequent
request sequence is served exactly as from a never-used registry. -/
theorem flush_clears (mocks order : List Mock) (k : String) (reqs : List Request)
    (horder : order.Perm (flushOp mocks)) :
    (findOp order (flushOp mocks) k).1 = none ∧
    serveAll (flushOp mocks) reqs = serveAll ([] : List Mock) reqs := by
  have hnil : order = [] := List.Perm.eq_nil horder
  subst hnil
  exact ⟨rfl, rfl⟩

/-- Witness for C9's theorem: flushing a registry holding `pingMock`,
then probing with its own key and replaying the `GET /ping` request. -/
theorem flush_clears_witness :
    (findOp [] (flushOp [pingMock]) "GET_/ping").1 = none ∧
    serveAll (flushOp [pingMock]) [pingReq] = serveAll ([] : List Mock) [pingReq] :=
  flush_clears [pingMock] [] "GET_/ping" [pingReq] (by decide)

/-! ## Claim C10 -/

/-- C10, confirmed: when an add collides with a stored key, the stored
expectation's budget rises by exactly one, every other stored field of
it is unchanged, every entry under a different key is untouched, and the
result is independent of everything in the added mock but its key — in
particular the added mock's own `Times` is discarded. -/
theorem add_merge_frame (mocks : List Mock) (arg e : Mock)
    (hfound : mocks.find? (fun x => x.key == arg.key) = some e) :
    (mapGet (addMock mocks arg) arg.key).times = e.times + 1 ∧
    (mapGet (addMock mocks arg) arg.key).method = e.method ∧
    (mapGet (addMock mocks arg) arg.key).url = e.url ∧
    (mapGet (addMock mocks arg) arg.key).reqHeaders = e.reqHeaders ∧
    (mapGet (addMock mocks arg) arg.key).reqBody = e.reqBody ∧
    (mapGet (addMock mocks arg) arg.key).respStatus = e.respStatus ∧
    (mapGet (addMock mocks arg) arg.key).respHeaders = e.respHeaders ∧
    (mapGet (addMock mocks arg) arg.key).respBody = e.respBody ∧
    (mapGet (addMock mocks arg) arg.key).wait = e.wait ∧
    (∀ x ∈ mocks, x.key ≠ arg.key → x ∈ addMock mocks arg) ∧
    (∀ arg2 : Mock, arg2.key = arg.key → addMock mocks arg2 = addMock mocks arg) := by
  have hek : e.key = arg.key := by
    simpa using List.find?_some hfound
  have hmerge : addMock mocks arg = mapPut mocks { e with times := e.times + 1 } :=
    addMock_found mocks arg e hfound
  have hget : mapGet (addMock mocks arg) arg.key = { e with times := e.times + 1 } := by
    rw [hmerge]
    have hg := mapGet_mapPut mocks { e with times := e.times + 1 }
    rw [key_times_update, hek] at hg
    exact hg
  refine ⟨?_, ?_, ?_, ?_, ?_, ?_, ?_, ?_, ?_, ?_, ?_⟩
  · rw [hget]
  · rw [hget]
  · rw [hget]
  · rw [hget]
  · rw [hget]
  · rw [hget]
  · rw [hget]
  · rw [hget]
  · rw [hget]
  · intro x hx hk
    rw [hmerge]
    have hkey2 : Mock.key { e with times := e.times + 1 } = arg.key := by
      have h0 : Mock.key { e with times := e.times + 1 } = e.key := rfl
      rw [h0, hek]
    refine mem_mapPut_of_ne mocks { e with times := e.times + 1 } x hx ?_
    rw [hkey2]
    exact hk
  · intro arg2 h2
    have hfound2 : mocks.find? (fun x => x.key == arg2.key) = some e := by
      simp only [h2]
      exact hfound
    rw [addMock_found mocks arg2 e hfound2, hmerge]

/-- Witness for C10's theorem: merging `mergeArg` onto `[pingMock]`
leaves every stored field but the budget unchanged. -/
theorem add_merge_frame_witness :
    (mapGet (addMock [pingMock] mergeArg) (Mock.key mergeArg)).times
        = Mock.times pingMock + 1 ∧
    (mapGet (addMock [pingMock] mergeArg) (Mock.key mergeArg)).respBody
        = Mock.respBody pingMock :=
  ⟨(add_merge_frame [pingMock] mergeArg pingMock (by decide)).1,
   (add_merge_frame [pingMock] mergeArg pingMock (by decide)).2.2.2.2.2.2.2.1⟩

end Yams
